import Mathlib

/-!
Verification of the temporal tiling and dependency-resolution core of
`pycbc/workflow/jobsetup.py`.

The embedding models Python floats with exact rationals (`ℚ`), GPS times as
rationals (specialised to integers where a claim assumes integer endpoints),
`ligo.segments.segment` as a pair of rationals, and Python `int()` (truncation
toward zero) as `pyInt`.  Fallible code paths (`raise ValueError`) are modelled
with `Except String`.
-/

/-- The epsilon fudge factor `0.0001` used by the source to guard against
float round-off at segment boundaries. -/
def eps : ℚ := 1 / 10000

/-- Python `int()` applied to a real number: truncation toward zero. -/
def pyInt (q : ℚ) : ℤ := if q < 0 then ⌈q⌉ else ⌊q⌋

/-- A time segment, as in `ligo.segments.segment`: a pair of endpoints. -/
structure Seg where
  lo : ℚ
  hi : ℚ
  deriving DecidableEq

/-- The length `hi - lo`, as `abs(seg)` in ligo segments. -/
def Seg.size (s : Seg) : ℚ := s.hi - s.lo

/-- Translate both endpoints by `d`, as `seg.shift(d)`. -/
def Seg.shift (s : Seg) (d : ℚ) : Seg := ⟨s.lo + d, s.hi + d⟩

/-- Membership of a time in a (closed) segment. -/
def Seg.mem (s : Seg) (t : ℚ) : Prop := s.lo ≤ t ∧ t ≤ s.hi

instance (s : Seg) (t : ℚ) : Decidable (s.mem t) := by
  unfold Seg.mem; infer_instance

/-- Segment intersection test, with the strict convention used both by
`ligo.segments.segment.intersects` and by the spec (§4.1):
two segments overlap iff `a.lo < b.hi` and `b.lo < a.hi`. -/
def Seg.overlaps (a b : Seg) : Prop := a.lo < b.hi ∧ b.lo < a.hi

instance (a b : Seg) : Decidable (a.overlaps b) := by
  unfold Seg.overlaps; infer_instance

/-- Boolean form of `Seg.overlaps`, used inside catalog filters. -/
def Seg.overlapsB (a b : Seg) : Bool :=
  decide (a.lo < b.hi) && decide (b.lo < a.hi)

/-- One entry of a tiling profile, as produced by `get_valid_times` /
`identify_needed_data`: the amount of data read (`data_length`) and the
sub-segment of `[0, data_length]` the output is valid for (`valid_chunk`).
The parallel `valid_lengths` list of the source is the derived
`valid_chunk.size` (`identify_needed_data` computes it as `abs(valid_chunk)`). -/
structure ProfileEntry where
  data_length : ℚ
  valid_chunk : Seg
  deriving DecidableEq

/-- Loop body of `JobSegmenter.pick_tile_size`: scan the entries, keeping the
current best pick and its distance to the target, replacing it only on a
strictly smaller distance (so the earliest minimiser wins). -/
def pickBest (target : ℚ) : List ProfileEntry → ProfileEntry → ℚ → ProfileEntry
  | [], best, _ => best
  | e :: rest, best, bestDiff =>
    if |e.valid_chunk.size - target| < bestDiff then
      pickBest target rest e |e.valid_chunk.size - target|
    else
      pickBest target rest best bestDiff

/-- The embedding of `JobSegmenter.pick_tile_size`: with a single-entry profile return that
entry; otherwise pick the entry whose valid length is closest to one third of
the science segment length, initial pick being entry 0.  The profile is passed
as head and tail because the source indexes `valid_lengths[0]` (an empty
profile would be a crash, not a result). -/
def pick_tile_size (seg_size : ℚ) (e0 : ProfileEntry) (rest : List ProfileEntry) :
    ProfileEntry :=
  if rest = [] then e0
  else
    pickBest (seg_size / 3) (e0 :: rest) e0 |e0.valid_chunk.size - seg_size / 3|

/-- Error message raised by `JobSegmenter.__init__` on negative data loss. -/
def fix_msg : String := "pycbc.workflow.jobsetup needs fixing! Please contact a developer"

/-- Error message raised when recomputed non-overlap boundaries leave the
naturally valid window. -/
def invalid_times_msg : String :=
  "Workflow is attempting to generate output from a job at times where it is not valid."

/-- Error message of the job-0 boundary check in `get_data_times_for_job`. -/
def start_flush_msg : String :=
  "Job is not using data from the start of the science segment. It should be using all data."

/-- Error message of the last-job boundary check in `get_data_times_for_job`. -/
def end_flush_msg : String :=
  "Job is not using data from the end of the science segment. It should be using all data."

/-- The state built by `JobSegmenter.__init__`.  When the science segment is
shorter than the data length the source returns early with `num_jobs = 0` and
never assigns `job_time_shift`; the model stores `0` there. -/
structure Segmenter where
  curr_seg : Seg
  data_length : ℚ
  valid_chunk : Seg
  valid_length : ℚ
  data_chunk : Seg
  data_loss : ℚ
  num_jobs : ℤ
  job_time_shift : ℚ
  deriving DecidableEq

/-- The embedding of `JobSegmenter.__init__`: pick a tile size, compute the data loss (fatal if
negative), the job count `ceil((seg_length - data_loss) / valid_length)`, and
the inter-job shift `(seg_length - data_length) / (num_jobs - 1)` (zero when
the segment length equals the data length). -/
def JobSegmenter.init (e0 : ProfileEntry) (rest : List ProfileEntry)
    (curr_seg : Seg) : Except String Segmenter :=
  let curr_seg_length : ℚ := curr_seg.size
  let pe := pick_tile_size curr_seg_length e0 rest
  let data_loss : ℚ := pe.data_length - pe.valid_chunk.size
  if data_loss < 0 then
    Except.error fix_msg
  else if curr_seg_length < pe.data_length then
    Except.ok ⟨curr_seg, pe.data_length, pe.valid_chunk, pe.valid_chunk.size,
               ⟨0, pe.data_length⟩, data_loss, 0, 0⟩
  else
    let num_jobs : ℤ := ⌈(curr_seg_length - data_loss) / pe.valid_chunk.size⌉
    let job_time_shift : ℚ :=
      if curr_seg_length = pe.data_length then 0
      else (curr_seg_length - pe.data_length) / ((num_jobs : ℚ) - 1)
    Except.ok ⟨curr_seg, pe.data_length, pe.valid_chunk, pe.valid_chunk.size,
               ⟨0, pe.data_length⟩, data_loss, num_jobs, job_time_shift⟩

/-- The embedding of `JobSegmenter.get_valid_times_for_job`.  With `allow_overlap` the valid
chunk is shifted by `curr_seg[0] + int(job_time_shift * num_job + 0.0001)`;
otherwise disjoint equal slices of the analysable span are recomputed and it
is a fatal error if they leave the shifted valid window. -/
def Segmenter.get_valid_times_for_job (s : Segmenter) (num_job : ℕ)
    (allow_overlap : Bool) : Except String Seg :=
  let shift_dur : ℚ :=
    s.curr_seg.lo + (pyInt (s.job_time_shift * num_job + eps) : ℚ)
  let job_valid_seg := s.valid_chunk.shift shift_dur
  if allow_overlap then
    Except.ok job_valid_seg
  else
    let data_per_job : ℚ := (s.curr_seg.size - s.data_loss) / (s.num_jobs : ℚ)
    let lower_boundary : ℚ :=
      (num_job : ℚ) * data_per_job + s.valid_chunk.lo + s.curr_seg.lo
    let upper_boundary : ℚ := data_per_job + lower_boundary
    let lowerI : ℤ := pyInt lower_boundary
    let upperI : ℤ := pyInt (upper_boundary + eps)
    if (lowerI : ℚ) < job_valid_seg.lo ∨ (upperI : ℚ) > job_valid_seg.hi then
      Except.error invalid_times_msg
    else
      Except.ok ⟨(lowerI : ℚ), (upperI : ℚ)⟩

/-- The embedding of `JobSegmenter.get_data_times_for_job` for an executable class without the
`zero_pad_data_extend` attribute (the post-processing hook is absent for the
generic case): shift the data chunk, then run the defensive boundary checks
that the first/last job is flush with the science segment. -/
def Segmenter.get_data_times_for_job (s : Segmenter) (num_job : ℕ) :
    Except String Seg :=
  let shift_dur : ℚ :=
    s.curr_seg.lo + (pyInt (s.job_time_shift * num_job + eps) : ℚ)
  let job_data_seg := s.data_chunk.shift shift_dur
  if num_job = 0 ∧ job_data_seg.lo ≠ s.curr_seg.lo then
    Except.error start_flush_msg
  else if (num_job : ℤ) = s.num_jobs - 1 ∧ job_data_seg.hi ≠ s.curr_seg.hi then
    Except.error end_flush_msg
  else
    Except.ok job_data_seg

/-- The job indices looped over by `sngl_ifo_job_setup`:
`range(segmenter.num_jobs)`. -/
def Segmenter.jobIndices (s : Segmenter) : List ℕ := List.range s.num_jobs.toNat

/-- A time-indexed catalog entry (a `File` of the source): its coverage
segment, the ifo it belongs to, and its tags. -/
structure Artifact where
  ival : Seg
  owner : String
  tags : List String
  deriving DecidableEq

/-- Modelled from the spec: `FileList.find_outputs_in_range` of
`pycbc.workflow.core` is not among the given sources; spec §4.3 defines the
resolver as selecting every catalog artifact whose interval overlaps the
target interval and whose owner matches the filter. -/
def find_outputs_in_range (catalog : List Artifact) (ifo : String)
    (target : Seg) : List Artifact :=
  catalog.filter (fun art => art.owner == ifo && art.ival.overlapsB target)

/-- Modelled from the spec: `FileList.find_all_output_in_range` of
`pycbc.workflow.core` is not among the given sources; per spec §4.3 it is the
same overlap query, used for the raw-data dependency class. -/
def find_all_output_in_range (catalog : List Artifact) (ifo : String)
    (target : Seg) : List Artifact :=
  catalog.filter (fun art => art.owner == ifo && art.ival.overlapsB target)

/-- The node emitted for one (job plan, fan-out parent) pair. -/
structure JobNode where
  data_window : Seg
  valid_window : Seg
  parent : Option Artifact
  df_parents : Option (List Artifact)
  deriving DecidableEq

/-- Error message of the parent-resolution check in `sngl_ifo_job_setup`. -/
def no_parent_msg : String :=
  "No parent jobs found overlapping. This is a bad error! Contact a developer."

/-- Error message of the datafind-resolution check in `sngl_ifo_job_setup`. -/
def no_datafind_msg : String :=
  "No datafind jobs found overlapping. This should not happen. Contact a developer."

/-- Steps (5) and (6) of `sngl_ifo_job_setup` for a single job plan: resolve
parents against the valid window (fatal if a nonempty parent list yields no
overlap), resolve datafind inputs against the data window (fatal if a
nonempty datafind list yields no overlap), then create one node per resolved
parent (a single node with `parent = none` when no parents were supplied),
all sharing the same data window and datafind inputs. -/
def setup_jobs_for_plan (ifo : String) (parents datafind_outs : List Artifact)
    (job_valid_seg job_data_seg : Seg) : Except String (List JobNode) :=
  let cp := find_outputs_in_range parents ifo job_valid_seg
  if !parents.isEmpty && cp.isEmpty then
    Except.error no_parent_msg
  else
    let curr_parent : List (Option Artifact) :=
      if parents.isEmpty then [none] else cp.map some
    let dfo := find_all_output_in_range datafind_outs ifo job_data_seg
    if !datafind_outs.isEmpty && dfo.isEmpty then
      Except.error no_datafind_msg
    else
      let curr_dfouts : Option (List Artifact) :=
        if datafind_outs.isEmpty then none else some dfo
      Except.ok (curr_parent.map (fun p => ⟨job_data_seg, job_valid_seg, p, curr_dfouts⟩))

instance {ε α : Type} [DecidableEq ε] [DecidableEq α] : DecidableEq (Except ε α) :=
  fun a b =>
  match a, b with
  | Except.error e₁, Except.error e₂ =>
    if h : e₁ = e₂ then Decidable.isTrue (by rw [h])
    else Decidable.isFalse (by intro hc; cases hc; exact h rfl)
  | Except.error _, Except.ok _ => Decidable.isFalse (by intro hc; cases hc)
  | Except.ok _, Except.error _ => Decidable.isFalse (by intro hc; cases hc)
  | Except.ok a₁, Except.ok a₂ =>
    if h : a₁ = a₂ then Decidable.isTrue (by rw [h])
    else Decidable.isFalse (by intro hc; cases hc; exact h rfl)

/-- The job count written as the source computes it:
`ceil((seg_length - data_loss) / valid_length)` with `data_loss = dl - V`. -/
def numJobsFormula (L dl V : ℚ) : ℤ := ⌈(L - (dl - V)) / V⌉

/-- The inter-job shift as the source computes it: `0` when the segment length
equals the data length, else `(L - dl) / (num_jobs - 1)`. -/
def shiftFormula (L dl V : ℚ) : ℚ :=
  if L = dl then 0 else (L - dl) / ((numJobsFormula L dl V : ℚ) - 1)

/-! ### Concrete scenario data -/

/-- Scenario-1 profile entry: `readable_span = 2048`, `valid_span = [72, 1976]`. -/
def bank_entry : ProfileEntry := ⟨2048, ⟨72, 1976⟩⟩

/-- Scenario-1 science interval `[0, 6000]`. -/
def sci_seg1 : Seg := ⟨0, 6000⟩

/-- The segmenter built for scenario 1: 4 jobs, shift `3952/3`. -/
def segmenter1 : Segmenter :=
  ⟨⟨0, 6000⟩, 2048, ⟨72, 1976⟩, 1904, ⟨0, 2048⟩, 144, 4, 3952 / 3⟩

/-! ### Claims -/

/-- The segmenter built from a single-entry profile on `S = [0, 2048]` with
`readable_span = 2048`: exactly one job and zero shift. -/
def s2048 : Segmenter :=
  ⟨⟨0, 2048⟩, 2048, ⟨72, 1976⟩, 1904, ⟨0, 2048⟩, 144, 1, 0⟩

/-- Distance of an entry's valid length from the target size. -/
def entryDiff (target : ℚ) (e : ProfileEntry) : ℚ := |e.valid_chunk.size - target|

/-- A two-entry profile: valid lengths 2500 and 2000. -/
def entA : ProfileEntry := ⟨2600, ⟨0, 2500⟩⟩

/-- Second profile entry, whose valid length 2000 is closest to one third of
a 6000-second segment. -/
def entB : ProfileEntry := ⟨2100, ⟨0, 2000⟩⟩

/-- The instrument name used by the concrete dependency scenarios. -/
def ifoH1 : String := "H1"

/-- The catalog artifact of concrete scenario 3: interval `[50, 2000]`,
tagged `bank`. -/
def bank_art : Artifact := ⟨⟨50, 2000⟩, ifoH1, ["bank"]⟩

/-- A second bank artifact also overlapping scenario 4's valid window. -/
def bank_art2 : Artifact := ⟨⟨40, 2100⟩, ifoH1, ["bank2"]⟩

/-- The profile entry of the C4 counterexample: `readable_span = 2`,
`valid_span = [0, 2]` (no data loss). -/
def entC4 : ProfileEntry := ⟨2, ⟨0, 2⟩⟩

/-- The segmenter of the C4 counterexample: science interval `[0, 19999]`,
10000 jobs, shift `19997/9999`. -/
def sC4 : Segmenter :=
  ⟨⟨0, 19999⟩, 2, ⟨0, 2⟩, 2, ⟨0, 2⟩, 0, 10000, 19997 / 9999⟩

/-- The coverage predicate used to locate the job whose valid window
contains a given time: job `i`'s window starts at or before `t`. -/
def coverP (sigma lowbase t : ℚ) (i : ℕ) : Prop :=
  lowbase + (⌊sigma * (i : ℚ) + eps⌋ : ℚ) ≤ t

instance (sigma lowbase t : ℚ) : DecidablePred (coverP sigma lowbase t) :=
  fun i => by unfold coverP; infer_instance

theorem Seg.overlapsB_iff (a b : Seg) : a.overlapsB b = true ↔ a.overlaps b := by
  simp [Seg.overlapsB, Seg.overlaps]

/-! ### Helper lemmas about the embedded operations -/

theorem pick_tile_size_single (L : ℚ) (e0 : ProfileEntry) :
    pick_tile_size L e0 [] = e0 := by
  unfold pick_tile_size
  simp

theorem pyInt_of_nonneg (q : ℚ) (h : 0 ≤ q) : pyInt q = ⌊q⌋ := by
  unfold pyInt
  rw [if_neg (not_lt.mpr h)]

theorem pyInt_eq_of (q : ℚ) (z : ℤ) (h0 : 0 ≤ q) (h1 : (z : ℚ) ≤ q)
    (h2 : q < z + 1) : pyInt q = z := by
  rw [pyInt_of_nonneg q h0]
  exact Int.floor_eq_iff.mpr ⟨h1, h2⟩

theorem pyInt_mono (p q : ℚ) (h : p ≤ q) : pyInt p ≤ pyInt q := by
  unfold pyInt
  by_cases hp : p < 0
  · by_cases hq : q < 0
    · rw [if_pos hp, if_pos hq]
      exact Int.ceil_le_ceil h
    · rw [if_pos hp, if_neg hq]
      calc ⌈p⌉ ≤ ⌈(0 : ℚ)⌉ := Int.ceil_le_ceil hp.le
      _ = 0 := Int.ceil_zero
      _ ≤ ⌊q⌋ := Int.floor_nonneg.mpr (not_lt.mp hq)
  · rw [if_neg hp, if_neg (not_lt.mpr ((not_lt.mp hp).trans h))]
    exact Int.floor_le_floor h

/-- Inverse characterization of `JobSegmenter.__init__`: the fields of any
successfully constructed segmenter, given the picked tile. -/
theorem init_fields (e0 : ProfileEntry) (rest : List ProfileEntry) (seg : Seg)
    (dl : ℚ) (vc : Seg) (s : Segmenter)
    (hpick : pick_tile_size seg.size e0 rest = ⟨dl, vc⟩)
    (h : JobSegmenter.init e0 rest seg = Except.ok s) :
    s.curr_seg = seg ∧ s.data_length = dl ∧ s.valid_chunk = vc ∧
    s.valid_length = vc.size ∧ s.data_chunk = ⟨0, dl⟩ ∧
    s.data_loss = dl - vc.size ∧ 0 ≤ dl - vc.size ∧
    (seg.size < dl → s.num_jobs = 0 ∧ s.job_time_shift = 0) ∧
    (¬ seg.size < dl →
       s.num_jobs = numJobsFormula seg.size dl vc.size ∧
       s.job_time_shift = shiftFormula seg.size dl vc.size) := by
  simp only [JobSegmenter.init, hpick] at h
  split at h
  · exact absurd h (by simp)
  · split at h
    all_goals rename_i hloss hlen
    · rw [Except.ok.injEq] at h
      subst h
      refine ⟨rfl, rfl, rfl, rfl, rfl, rfl, not_lt.mp hloss, fun _ => ⟨rfl, rfl⟩,
        fun hcon => absurd hlen hcon⟩
    · rw [Except.ok.injEq] at h
      subst h
      exact ⟨rfl, rfl, rfl, rfl, rfl, rfl, not_lt.mp hloss,
        fun hcon => absurd hcon hlen,
        fun _ => ⟨rfl, rfl⟩⟩

/-- Forward evaluation of `JobSegmenter.__init__` for a single-entry profile
on a segment at least as long as the data length. -/
theorem init_eval (e0 : ProfileEntry) (seg : Seg)
    (h0 : ¬ e0.data_length - e0.valid_chunk.size < 0)
    (h1 : ¬ seg.size < e0.data_length) :
    JobSegmenter.init e0 [] seg =
      Except.ok ⟨seg, e0.data_length, e0.valid_chunk, e0.valid_chunk.size,
                 ⟨0, e0.data_length⟩, e0.data_length - e0.valid_chunk.size,
                 numJobsFormula seg.size e0.data_length e0.valid_chunk.size,
                 shiftFormula seg.size e0.data_length e0.valid_chunk.size⟩ := by
  simp only [JobSegmenter.init, pick_tile_size_single]
  rw [if_neg h0, if_neg h1]
  rfl

/-- Forward evaluation of `JobSegmenter.__init__` on a segment shorter than
the data length: zero jobs. -/
theorem init_eval_short (e0 : ProfileEntry) (seg : Seg)
    (h0 : ¬ e0.data_length - e0.valid_chunk.size < 0)
    (h1 : seg.size < e0.data_length) :
    JobSegmenter.init e0 [] seg =
      Except.ok ⟨seg, e0.data_length, e0.valid_chunk, e0.valid_chunk.size,
                 ⟨0, e0.data_length⟩, e0.data_length - e0.valid_chunk.size, 0, 0⟩ := by
  simp only [JobSegmenter.init, pick_tile_size_single]
  rw [if_neg h0, if_pos h1]

theorem numJobs_pos (L dl V : ℚ) (hV : 0 < V) (hLD : dl ≤ L) :
    1 ≤ numJobsFormula L dl V := by
  unfold numJobsFormula
  have : (1 : ℚ) ≤ (L - (dl - V)) / V := by
    rw [le_div_iff hV]
    linarith
  calc (1 : ℤ) = ⌈(1 : ℚ)⌉ := by norm_num
  _ ≤ ⌈(L - (dl - V)) / V⌉ := Int.ceil_le_ceil this

theorem numJobs_two (L dl V : ℚ) (hV : 0 < V) (hLD : dl < L) :
    2 ≤ numJobsFormula L dl V := by
  unfold numJobsFormula
  have h1 : (1 : ℚ) < (L - (dl - V)) / V := by
    rw [lt_div_iff hV]
    linarith
  exact Int.lt_ceil.mpr h1

theorem numJobs_one_iff (L dl V : ℚ) (hV : 0 < V) (hLD : dl ≤ L) :
    numJobsFormula L dl V = 1 ↔ L = dl := by
  constructor
  · intro h1
    by_contra hne
    have := numJobs_two L dl V hV (lt_of_le_of_ne hLD (fun a => hne a.symm))
    omega
  · intro h
    subst h
    unfold numJobsFormula
    rw [show (L - (L - V)) / V = (1 : ℚ) by field_simp]
    exact Int.ceil_one

theorem shift_nonneg (L dl V : ℚ) (hV : 0 < V) (hLD : dl ≤ L) :
    0 ≤ shiftFormula L dl V := by
  unfold shiftFormula
  split
  · exact le_refl 0
  · rename_i hne
    have h2 : 2 ≤ numJobsFormula L dl V :=
      numJobs_two L dl V hV (lt_of_le_of_ne hLD (fun a => hne a.symm))
    have hd : (0 : ℚ) < (numJobsFormula L dl V : ℚ) - 1 := by
      have : (2 : ℚ) ≤ (numJobsFormula L dl V : ℚ) := by exact_mod_cast h2
      linarith
    exact div_nonneg (by linarith) hd.le

theorem shift_mul (L dl V : ℚ) (hV : 0 < V) (hLD : dl ≤ L) :
    shiftFormula L dl V * ((numJobsFormula L dl V : ℚ) - 1) = L - dl := by
  unfold shiftFormula
  split
  · rename_i heq
    rw [heq]
    ring
  · rename_i hne
    have h2 : 2 ≤ numJobsFormula L dl V :=
      numJobs_two L dl V hV (lt_of_le_of_ne hLD (fun a => hne a.symm))
    have hd : ((numJobsFormula L dl V : ℚ) - 1) ≠ 0 := by
      have h2q : (2 : ℚ) ≤ (numJobsFormula L dl V : ℚ) := by exact_mod_cast h2
      intro hc
      rw [sub_eq_zero] at hc
      rw [hc] at h2q
      norm_num at h2q
    field_simp

theorem shift_le (L dl V : ℚ) (hV : 0 < V) (hLD : dl ≤ L) :
    shiftFormula L dl V ≤ V := by
  unfold shiftFormula
  split
  · exact hV.le
  · rename_i hne
    have h2 : 2 ≤ numJobsFormula L dl V :=
      numJobs_two L dl V hV (lt_of_le_of_ne hLD (fun a => hne a.symm))
    have hd : (0 : ℚ) < (numJobsFormula L dl V : ℚ) - 1 := by
      have : (2 : ℚ) ≤ (numJobsFormula L dl V : ℚ) := by exact_mod_cast h2
      linarith
    rw [div_le_iff hd]
    have hceil : (L - (dl - V)) / V ≤ (numJobsFormula L dl V : ℚ) := Int.le_ceil _
    rw [div_le_iff hV] at hceil
    nlinarith

/-- With `allow_overlap` the valid window is always returned: the valid chunk
shifted by `curr_seg[0] + int(job_time_shift * num_job + 0.0001)`. -/
theorem get_valid_true_eq (s : Segmenter) (i : ℕ) :
    s.get_valid_times_for_job i true =
      Except.ok (s.valid_chunk.shift
        (s.curr_seg.lo + (pyInt (s.job_time_shift * i + eps) : ℚ))) := rfl

/-- Characterization of a successful `get_data_times_for_job` call: the result
is the shifted data chunk and both defensive boundary checks passed. -/
theorem get_data_ok_iff (s : Segmenter) (i : ℕ) (d : Seg) :
    s.get_data_times_for_job i = Except.ok d ↔
      (d = s.data_chunk.shift
            (s.curr_seg.lo + (pyInt (s.job_time_shift * i + eps) : ℚ)) ∧
       (i = 0 → d.lo = s.curr_seg.lo) ∧
       ((i : ℤ) = s.num_jobs - 1 → d.hi = s.curr_seg.hi)) := by
  unfold Segmenter.get_data_times_for_job
  simp only [Seg.shift]
  constructor
  · intro h
    split at h
    · exact absurd h (by simp)
    · split at h
      · exact absurd h (by simp)
      · rename_i h1 h2
        rw [Except.ok.injEq] at h
        subst h
        push_neg at h1 h2
        exact ⟨rfl, fun h0 => h1 h0, fun hl => h2 hl⟩
  · rintro ⟨hd, h0, hl⟩
    subst hd
    rw [if_neg (by push_neg; intro hi0; exact h0 hi0),
        if_neg (by push_neg; intro hil; exact hl hil)]

/-- Characterization of a successful `get_valid_times_for_job` call with
`allow_overlap = False`: the window is the integer rounding of the equal
slice, and the rounded boundaries stayed inside the shifted valid window. -/
theorem get_valid_false_ok_iff (s : Segmenter) (i : ℕ) (w : Seg) :
    s.get_valid_times_for_job i false = Except.ok w ↔
      (¬ ((pyInt ((i : ℚ) * ((s.curr_seg.size - s.data_loss) / (s.num_jobs : ℚ)) +
              s.valid_chunk.lo + s.curr_seg.lo) : ℚ) <
            s.valid_chunk.lo +
              (s.curr_seg.lo + (pyInt (s.job_time_shift * i + eps) : ℚ)) ∨
          (pyInt ((s.curr_seg.size - s.data_loss) / (s.num_jobs : ℚ) +
              ((i : ℚ) * ((s.curr_seg.size - s.data_loss) / (s.num_jobs : ℚ)) +
                s.valid_chunk.lo + s.curr_seg.lo) + eps) : ℚ) >
            s.valid_chunk.hi +
              (s.curr_seg.lo + (pyInt (s.job_time_shift * i + eps) : ℚ))) ∧
       w = ⟨(pyInt ((i : ℚ) * ((s.curr_seg.size - s.data_loss) / (s.num_jobs : ℚ)) +
                s.valid_chunk.lo + s.curr_seg.lo) : ℚ),
            (pyInt ((s.curr_seg.size - s.data_loss) / (s.num_jobs : ℚ) +
                ((i : ℚ) * ((s.curr_seg.size - s.data_loss) / (s.num_jobs : ℚ)) +
                  s.valid_chunk.lo + s.curr_seg.lo) + eps) : ℚ)⟩) := by
  unfold Segmenter.get_valid_times_for_job
  simp only [Bool.false_eq_true, if_false, Seg.shift]
  constructor
  · intro h
    split at h
    · exact absurd h (by simp)
    · rename_i hcheck
      rw [Except.ok.injEq] at h
      subst h
      exact ⟨hcheck, rfl⟩
  · rintro ⟨hcheck, hw⟩
    subst hw
    rw [if_neg hcheck]

/-- Offsets with a nonnegative shift truncate as a floor. -/
theorem offset_floor (σ : ℚ) (i : ℕ) (hσ : 0 ≤ σ) :
    pyInt (σ * i + eps) = ⌊σ * i + eps⌋ := by
  apply pyInt_of_nonneg
  have h1 : 0 ≤ σ * (i : ℚ) := mul_nonneg hσ (Nat.cast_nonneg i)
  have h2 : (0 : ℚ) < eps := by norm_num [eps]
  linarith

/-- Job 0 gets offset 0. -/
theorem offset_zero (σ : ℚ) : pyInt (σ * ((0 : ℕ) : ℚ) + eps) = 0 := by
  apply pyInt_eq_of <;> norm_num [eps]

/-- Offsets are monotone in the job index. -/
theorem offset_mono (σ : ℚ) (i j : ℕ) (hσ : 0 ≤ σ) (hij : i ≤ j) :
    pyInt (σ * i + eps) ≤ pyInt (σ * j + eps) := by
  apply pyInt_mono
  have : (i : ℚ) ≤ (j : ℚ) := by exact_mod_cast hij
  nlinarith

/-- Consecutive offsets advance by at most the integer `V` bounding the
shift. -/
theorem offset_step (σ : ℚ) (i : ℕ) (V : ℤ) (hσ : 0 ≤ σ) (hσV : σ ≤ (V : ℚ)) :
    pyInt (σ * (i + 1 : ℕ) + eps) ≤ pyInt (σ * i + eps) + V := by
  rw [offset_floor σ _ hσ, offset_floor σ i hσ]
  have h1 : σ * ((i + 1 : ℕ) : ℚ) + eps ≤ (σ * i + eps) + (V : ℚ) := by
    push_cast
    nlinarith
  calc ⌊σ * ((i + 1 : ℕ) : ℚ) + eps⌋ ≤ ⌊(σ * i + eps) + (V : ℚ)⌋ := Int.floor_le_floor h1
  _ = ⌊σ * i + eps⌋ + V := Int.floor_add_int _ V

/-- When the shift times the index is exactly an integer, the epsilon does not
move the offset. -/
theorem offset_exact (σ : ℚ) (i : ℕ) (K : ℤ) (hσ : 0 ≤ σ)
    (h : σ * (i : ℚ) = (K : ℚ)) : pyInt (σ * i + eps) = K := by
  rw [offset_floor σ i hσ, h]
  rw [show (K : ℚ) + eps = eps + (K : ℚ) by ring]
  rw [Int.floor_add_int]
  norm_num [eps]

theorem numJobs1_eval : numJobsFormula (6000 : ℚ) 2048 1904 = 4 := by
  unfold numJobsFormula
  norm_num [Int.ceil_eq_iff]

theorem shift1_eval : shiftFormula (6000 : ℚ) 2048 1904 = 3952 / 3 := by
  unfold shiftFormula
  rw [if_neg (by norm_num), numJobs1_eval]
  norm_num

theorem segmenter1_init :
    JobSegmenter.init bank_entry [] sci_seg1 = Except.ok segmenter1 := by
  rw [init_eval bank_entry sci_seg1 (by norm_num [bank_entry, Seg.size])
      (by norm_num [bank_entry, sci_seg1, Seg.size])]
  simp only [bank_entry, sci_seg1, segmenter1, Seg.size]
  norm_num
  exact ⟨numJobs1_eval, shift1_eval⟩

theorem seg1_off0 : pyInt (segmenter1.job_time_shift * ((0 : ℕ) : ℚ) + eps) = 0 :=
  offset_zero _

theorem seg1_off1 : pyInt (segmenter1.job_time_shift * ((1 : ℕ) : ℚ) + eps) = 1317 := by
  apply pyInt_eq_of <;> norm_num [segmenter1, eps]

theorem seg1_off2 : pyInt (segmenter1.job_time_shift * ((2 : ℕ) : ℚ) + eps) = 2634 := by
  apply pyInt_eq_of <;> norm_num [segmenter1, eps]

theorem seg1_off3 : pyInt (segmenter1.job_time_shift * ((3 : ℕ) : ℚ) + eps) = 3952 := by
  apply pyInt_eq_of <;> norm_num [segmenter1, eps]

theorem seg1_data0 : segmenter1.get_data_times_for_job 0 = Except.ok ⟨0, 2048⟩ := by
  rw [get_data_ok_iff]
  refine ⟨?_, fun _ => by norm_num [segmenter1], fun hc => by norm_num [segmenter1] at hc⟩
  rw [seg1_off0]
  norm_num [segmenter1, Seg.shift]

theorem seg1_data3 : segmenter1.get_data_times_for_job 3 = Except.ok ⟨3952, 6000⟩ := by
  rw [get_data_ok_iff]
  refine ⟨?_, fun hc => by norm_num at hc, fun _ => by norm_num [segmenter1]⟩
  rw [seg1_off3]
  norm_num [segmenter1, Seg.shift]

theorem seg1_valid0 : segmenter1.get_valid_times_for_job 0 true = Except.ok ⟨72, 1976⟩ := by
  rw [get_valid_true_eq, seg1_off0]
  norm_num [segmenter1, Seg.shift]

theorem seg1_valid1 : segmenter1.get_valid_times_for_job 1 true = Except.ok ⟨1389, 3293⟩ := by
  rw [get_valid_true_eq, seg1_off1]
  norm_num [segmenter1, Seg.shift]

theorem seg1_valid2 : segmenter1.get_valid_times_for_job 2 true = Except.ok ⟨2706, 4610⟩ := by
  rw [get_valid_true_eq, seg1_off2]
  norm_num [segmenter1, Seg.shift]

theorem seg1_valid3 : segmenter1.get_valid_times_for_job 3 true = Except.ok ⟨4024, 5928⟩ := by
  rw [get_valid_true_eq, seg1_off3]
  norm_num [segmenter1, Seg.shift]

/-- Claim C10: for every science interval strictly shorter than the chosen
readable span (with nonnegative data loss), the segmenter is constructed
without error, `num_jobs = 0`, and the job list iterated by the driver is
empty. -/
theorem C10_short_segment_zero_jobs (ss se a b D : ℤ)
    (hab : a ≤ b) (hloss : b - a ≤ D) (hshort : (se : ℚ) - ss < D) :
    ∃ s, JobSegmenter.init ⟨(D : ℚ), ⟨(a : ℚ), (b : ℚ)⟩⟩ [] ⟨(ss : ℚ), (se : ℚ)⟩ =
          Except.ok s ∧ s.num_jobs = 0 ∧ s.jobIndices = [] := by
  refine ⟨_, init_eval_short _ _ ?_ ?_, rfl, rfl⟩
  · simp only [Seg.size, not_lt]
    have hq : ((b : ℚ) - a) ≤ (D : ℚ) := by exact_mod_cast hloss
    linarith
  · simp only [Seg.size]
    exact hshort

/-- Witness for C10 at concrete scenario 2: `S = [0, 1000]` with
`readable_span = 2048` gives zero jobs and no error. -/
theorem C10_short_segment_zero_jobs_witness :
    ∃ s, JobSegmenter.init ⟨((2048 : ℤ) : ℚ), ⟨((72 : ℤ) : ℚ), ((1976 : ℤ) : ℚ)⟩⟩ []
          ⟨((0 : ℤ) : ℚ), ((1000 : ℤ) : ℚ)⟩ = Except.ok s ∧
      s.num_jobs = 0 ∧ s.jobIndices = [] :=
  C10_short_segment_zero_jobs 0 1000 72 1976 2048 (by norm_num) (by norm_num)
    (by norm_num)

/-- Claim C6: the shift computation never divides by zero.  With duration at
least the readable span, `num_jobs = 1` holds exactly when the duration equals
the readable span (and then the shift is assigned `0` without dividing);
whenever the dividing branch is taken, `num_jobs - 1 ≥ 1`. -/
theorem C6_shift_no_division_by_zero (e0 : ProfileEntry) (rest : List ProfileEntry)
    (seg : Seg) (dl : ℚ) (vc : Seg) (s : Segmenter)
    (hpick : pick_tile_size seg.size e0 rest = ⟨dl, vc⟩)
    (hinit : JobSegmenter.init e0 rest seg = Except.ok s)
    (hV : 0 < vc.size) (hLD : dl ≤ seg.size) :
    (s.num_jobs = 1 ↔ seg.size = dl) ∧
    (seg.size = dl → s.job_time_shift = 0) ∧
    (seg.size ≠ dl → 2 ≤ s.num_jobs) := by
  obtain ⟨-, -, -, -, -, -, -, -, hrest⟩ := init_fields e0 rest seg dl vc s hpick hinit
  obtain ⟨hn, hσ⟩ := hrest (not_lt.mpr hLD)
  refine ⟨?_, ?_, ?_⟩
  · rw [hn]
    exact numJobs_one_iff seg.size dl vc.size hV hLD
  · intro h
    rw [hσ]
    unfold shiftFormula
    rw [if_pos h]
  · intro h
    rw [hn]
    exact numJobs_two _ _ _ hV (lt_of_le_of_ne hLD (fun x => h x.symm))

theorem s2048_init : JobSegmenter.init bank_entry [] ⟨0, 2048⟩ = Except.ok s2048 := by
  rw [init_eval bank_entry ⟨0, 2048⟩ (by norm_num [bank_entry, Seg.size])
      (by norm_num [bank_entry, Seg.size])]
  simp only [bank_entry, s2048, Seg.size]
  norm_num
  constructor
  · unfold numJobsFormula
    norm_num [Int.ceil_eq_iff]
  · unfold shiftFormula
    norm_num

/-- Witness for C6: a single-entry profile with `S.duration = readable_span`
yields `num_jobs = 1` and `shift = 0`. -/
theorem C6_shift_no_division_by_zero_witness :
    s2048.num_jobs = 1 ∧ s2048.job_time_shift = 0 := by
  have h := C6_shift_no_division_by_zero bank_entry [] ⟨0, 2048⟩ 2048 ⟨72, 1976⟩
    s2048 (by rw [pick_tile_size_single]; rfl) s2048_init
    (by norm_num [Seg.size]) (by norm_num [Seg.size])
  exact ⟨h.1.mpr (by norm_num [Seg.size]), h.2.1 (by norm_num [Seg.size])⟩

/-- Claim C2: the number of jobs is `ceil((duration - data_loss) /
valid_length)`, the shift is `(duration - readable_span) / (num_jobs - 1)`
(the quotient degenerating to the assigned `0` when `num_jobs = 1`), the
per-job start offset applied to both windows is `floor(shift * i + 0.0001)`,
and concrete scenario 1 produces 4 jobs with shift `3952/3`, job-0 windows
`[0, 2048]` / `[72, 1976]`, and job 3 reading up to `6000`. -/
theorem C2_job_count_shift_offsets (e0 : ProfileEntry) (rest : List ProfileEntry)
    (seg : Seg) (dl : ℚ) (vc : Seg) (s : Segmenter)
    (hpick : pick_tile_size seg.size e0 rest = ⟨dl, vc⟩)
    (hinit : JobSegmenter.init e0 rest seg = Except.ok s)
    (hV : 0 < vc.size) (hLD : dl ≤ seg.size) :
    (s.num_jobs = ⌈(seg.size - s.data_loss) / s.valid_length⌉ ∧
     s.job_time_shift = (seg.size - dl) / ((s.num_jobs : ℚ) - 1) ∧
     (∀ i : ℕ, ∀ d : Seg, s.get_data_times_for_job i = Except.ok d →
        d.lo = seg.lo + (⌊s.job_time_shift * i + eps⌋ : ℚ)) ∧
     (∀ i : ℕ, ∀ w : Seg, s.get_valid_times_for_job i true = Except.ok w →
        w.lo = vc.lo + (seg.lo + (⌊s.job_time_shift * i + eps⌋ : ℚ)))) ∧
    (JobSegmenter.init bank_entry [] sci_seg1 = Except.ok segmenter1 ∧
     segmenter1.num_jobs = 4 ∧ segmenter1.job_time_shift = 3952 / 3 ∧
     segmenter1.get_data_times_for_job 0 = Except.ok ⟨0, 2048⟩ ∧
     segmenter1.get_valid_times_for_job 0 true = Except.ok ⟨72, 1976⟩ ∧
     segmenter1.get_data_times_for_job 3 = Except.ok ⟨3952, 6000⟩) := by
  obtain ⟨hcs, hdl, hvc, hvl, hdc, hloss, -, -, hrest⟩ :=
    init_fields e0 rest seg dl vc s hpick hinit
  obtain ⟨hn, hσ⟩ := hrest (not_lt.mpr hLD)
  have hσ0 : 0 ≤ s.job_time_shift := by
    rw [hσ]
    exact shift_nonneg seg.size dl vc.size hV hLD
  refine ⟨⟨?_, ?_, ?_, ?_⟩,
    segmenter1_init, rfl, rfl, seg1_data0, seg1_valid0, seg1_data3⟩
  · rw [hn, hloss, hvl]
    rfl
  · rw [hσ, hn]
    unfold shiftFormula
    split
    · rename_i heq
      rw [(numJobs_one_iff seg.size dl vc.size hV hLD).mpr heq]
      rw [heq]
      norm_num
    · rfl
  · intro i d hd
    obtain ⟨hdeq, -, -⟩ := (get_data_ok_iff s i d).mp hd
    rw [hdeq, hdc, hcs]
    simp only [Seg.shift]
    rw [offset_floor _ _ hσ0]
    ring
  · intro i w hw
    rw [get_valid_true_eq, Except.ok.injEq] at hw
    rw [← hw, hvc, hcs]
    simp only [Seg.shift]
    rw [offset_floor _ _ hσ0]

/-- Witness for C2 at concrete scenario 1. -/
theorem C2_job_count_shift_offsets_witness :
    segmenter1.num_jobs =
      ⌈(Seg.size sci_seg1 - segmenter1.data_loss) / segmenter1.valid_length⌉ ∧
    segmenter1.job_time_shift =
      (Seg.size sci_seg1 - 2048) / ((segmenter1.num_jobs : ℚ) - 1) ∧
    segmenter1.num_jobs = 4 := by
  have h := C2_job_count_shift_offsets bank_entry [] sci_seg1 2048 ⟨72, 1976⟩
    segmenter1 (by rw [pick_tile_size_single]; rfl) segmenter1_init
    (by norm_num [Seg.size]) (by norm_num [sci_seg1, Seg.size])
  exact ⟨h.1.1, h.1.2.1, h.2.2.1⟩

/-- Claim C5: the shift offset applied to the valid window equals the one
applied to the data window (both windows are the respective chunks shifted by
`curr_seg[0] + int(job_time_shift * i + 0.0001)`); consequently, when the
valid chunk lies inside `[0, data_length]`, every valid window is contained
in the data window of the same job. -/
theorem C5_valid_window_inside_data_window (s : Segmenter) (i : ℕ) (w d : Seg)
    (hw : s.get_valid_times_for_job i true = Except.ok w)
    (hd : s.get_data_times_for_job i = Except.ok d) :
    (w = s.valid_chunk.shift
          (s.curr_seg.lo + (pyInt (s.job_time_shift * i + eps) : ℚ)) ∧
     d = s.data_chunk.shift
          (s.curr_seg.lo + (pyInt (s.job_time_shift * i + eps) : ℚ))) ∧
    (s.data_chunk = ⟨0, s.data_length⟩ → 0 ≤ s.valid_chunk.lo →
     s.valid_chunk.hi ≤ s.data_length → d.lo ≤ w.lo ∧ w.hi ≤ d.hi) := by
  rw [get_valid_true_eq, Except.ok.injEq] at hw
  obtain ⟨hdeq, -, -⟩ := (get_data_ok_iff s i d).mp hd
  refine ⟨⟨hw.symm, hdeq⟩, ?_⟩
  intro hdc hlo hhi
  rw [← hw, hdeq, hdc]
  simp only [Seg.shift]
  constructor <;> linarith

/-- Witness for C5 at scenario 1, job 0: valid window `[72, 1976]` is inside
data window `[0, 2048]`. -/
theorem C5_valid_window_inside_data_window_witness :
    (⟨0, 2048⟩ : Seg).lo ≤ (⟨72, 1976⟩ : Seg).lo ∧
    (⟨72, 1976⟩ : Seg).hi ≤ (⟨0, 2048⟩ : Seg).hi :=
  (C5_valid_window_inside_data_window segmenter1 0 ⟨72, 1976⟩ ⟨0, 2048⟩
    seg1_valid0 seg1_data0).2 (by norm_num [segmenter1])
    (by norm_num [segmenter1]) (by norm_num [segmenter1])

/-- Claim C3: with integer science-segment endpoints and an integer readable
span, every job's data window passes the defensive boundary checks (job 0
starts at the science segment's start, the last job ends at its end, so
`get_data_times_for_job` never raises); and in general the function never
returns a first/last window that is not flush with the segment boundary — a
failed check is a raised error, never a silent adjustment. -/
theorem C3_boundary_checks_never_raise (e0 : ProfileEntry) (rest : List ProfileEntry)
    (ss se D : ℤ) (vc : Seg) (s : Segmenter)
    (hpick : pick_tile_size (Seg.size ⟨(ss : ℚ), (se : ℚ)⟩) e0 rest = ⟨(D : ℚ), vc⟩)
    (hinit : JobSegmenter.init e0 rest ⟨(ss : ℚ), (se : ℚ)⟩ = Except.ok s)
    (hV : 0 < vc.size) (hjobs : 1 ≤ s.num_jobs) :
    (∀ i : ℕ, ∃ d, s.get_data_times_for_job i = Except.ok d) ∧
    (∃ d, s.get_data_times_for_job 0 = Except.ok d ∧ d.lo = (ss : ℚ)) ∧
    (∃ d, s.get_data_times_for_job (s.num_jobs - 1).toNat = Except.ok d ∧
       d.hi = (se : ℚ)) ∧
    (∀ (s2 : Segmenter) (j : ℕ) (d : Seg),
       s2.get_data_times_for_job j = Except.ok d →
       (j = 0 → d.lo = s2.curr_seg.lo) ∧
       ((j : ℤ) = s2.num_jobs - 1 → d.hi = s2.curr_seg.hi)) := by
  obtain ⟨hcs, hdl, hvc, hvl, hdc, hloss, hlossnn, hl0, hrest⟩ :=
    init_fields e0 rest ⟨(ss : ℚ), (se : ℚ)⟩ (D : ℚ) vc s hpick hinit
  have hLD : (D : ℚ) ≤ Seg.size ⟨(ss : ℚ), (se : ℚ)⟩ := by
    by_contra hc
    have := (hl0 (not_le.mp hc)).1
    omega
  obtain ⟨hn, hσ⟩ := hrest (not_lt.mpr hLD)
  have hσ0 : 0 ≤ s.job_time_shift := by
    rw [hσ]
    exact shift_nonneg _ _ _ hV hLD
  have hexact : ∀ i : ℕ, (i : ℤ) = s.num_jobs - 1 →
      s.job_time_shift * (i : ℚ) = ((se - ss - D : ℤ) : ℚ) := by
    intro i hi
    have hiq : (i : ℚ) = (s.num_jobs : ℚ) - 1 := by
      have := congrArg (fun z : ℤ => (z : ℚ)) hi
      push_cast at this
      exact this
    have hmul := shift_mul (Seg.size ⟨(ss : ℚ), (se : ℚ)⟩) (D : ℚ) vc.size hV hLD
    rw [← hn, ← hσ] at hmul
    rw [hiq, hmul]
    simp only [Seg.size]
    push_cast
    ring
  have hmain : ∀ i : ℕ, s.get_data_times_for_job i =
      Except.ok (s.data_chunk.shift
        (s.curr_seg.lo + (pyInt (s.job_time_shift * i + eps) : ℚ))) := by
    intro i
    rw [get_data_ok_iff]
    refine ⟨rfl, ?_, ?_⟩
    · rintro rfl
      rw [offset_zero, hdc, hcs]
      simp [Seg.shift]
    · intro hi
      rw [offset_exact _ _ _ hσ0 (hexact i hi), hdc, hcs]
      simp only [Seg.shift]
      push_cast
      ring
  refine ⟨fun i => ⟨_, hmain i⟩, ⟨_, hmain 0, ?_⟩, ⟨_, hmain _, ?_⟩, ?_⟩
  · rw [offset_zero, hdc, hcs]
    simp [Seg.shift]
  · have hi : ((s.num_jobs - 1).toNat : ℤ) = s.num_jobs - 1 :=
      Int.toNat_of_nonneg (by omega)
    rw [offset_exact _ _ _ hσ0 (hexact _ hi), hdc, hcs]
    simp only [Seg.shift]
    push_cast
    ring
  · intro s2 j d hd
    obtain ⟨-, h0, hl⟩ := (get_data_ok_iff s2 j d).mp hd
    exact ⟨h0, hl⟩

/-- Witness for C3 at scenario 1: job 0 reads from `0`, job 3 reads to
`6000`, and all four jobs pass the checks. -/
theorem C3_boundary_checks_never_raise_witness :
    (∃ d, segmenter1.get_data_times_for_job 0 = Except.ok d ∧ d.lo = ((0 : ℤ) : ℚ)) ∧
    (∃ d, segmenter1.get_data_times_for_job (segmenter1.num_jobs - 1).toNat =
        Except.ok d ∧ d.hi = ((6000 : ℤ) : ℚ)) := by
  have h := C3_boundary_checks_never_raise bank_entry [] 0 6000 2048 ⟨72, 1976⟩
    segmenter1 (by rw [pick_tile_size_single]; rfl)
    (by push_cast; exact segmenter1_init) (by norm_num [Seg.size]) (by norm_num [segmenter1])
  exact ⟨h.2.1, h.2.2.1⟩

/-- The scan of `pick_tile_size` keeps the initial pick when nothing beats its
distance, and otherwise returns the earliest entry achieving a strictly
smaller, minimal distance. -/
theorem pickBest_spec (t : ℚ) (l : List ProfileEntry) (best : ProfileEntry) (bd : ℚ)
    (hbd : bd = entryDiff t best) :
    (pickBest t l best bd = best ∧ ∀ e ∈ l, bd ≤ entryDiff t e) ∨
    (∃ k : ℕ, l[k]? = some (pickBest t l best bd) ∧
       entryDiff t (pickBest t l best bd) < bd ∧
       (∀ e ∈ l, entryDiff t (pickBest t l best bd) ≤ entryDiff t e) ∧
       (∀ j : ℕ, j < k → ∀ e, l[j]? = some e →
          entryDiff t (pickBest t l best bd) < entryDiff t e)) := by
  induction l generalizing best bd with
  | nil =>
    left
    exact ⟨rfl, by simp⟩
  | cons e rest ih =>
    by_cases hcase : entryDiff t e < bd
    · have hres : pickBest t (e :: rest) best bd = pickBest t rest e (entryDiff t e) := by
        simp only [pickBest, entryDiff]
        rw [if_pos (by rw [← entryDiff]; exact hcase)]
      rw [hres]
      obtain (⟨heq, hall⟩ | ⟨k, hk, hlt, hmin, hbefore⟩) := ih e (entryDiff t e) rfl
      · right
        refine ⟨0, ?_, ?_, ?_, ?_⟩
        · simp [heq]
        · rw [heq]; exact hcase
        · intro x hx
          rw [heq]
          rcases List.mem_cons.mp hx with hx | hx
          · rw [hx]
          · exact hall x hx
        · intro j hj x hx
          exact absurd hj (Nat.not_lt_zero j)
      · right
        refine ⟨k + 1, ?_, lt_trans hlt hcase, ?_, ?_⟩
        · simpa using hk
        · intro x hx
          rcases List.mem_cons.mp hx with hx | hx
          · rw [hx]; exact le_of_lt hlt
          · exact hmin x hx
        · intro j hj x hx
          match j with
          | 0 =>
            simp only [List.getElem?_cons_zero, Option.some.injEq] at hx
            rw [← hx]
            exact hlt
          | j' + 1 =>
            rw [List.getElem?_cons_succ] at hx
            exact hbefore j' (by omega) x hx
    · have hres : pickBest t (e :: rest) best bd = pickBest t rest best bd := by
        simp only [pickBest, entryDiff]
        rw [if_neg (by rw [← entryDiff]; exact hcase)]
      rw [hres]
      obtain (⟨heq, hall⟩ | ⟨k, hk, hlt, hmin, hbefore⟩) := ih best bd hbd
      · left
        refine ⟨heq, ?_⟩
        intro x hx
        rcases List.mem_cons.mp hx with hx | hx
        · rw [hx]; exact not_lt.mp hcase
        · exact hall x hx
      · right
        refine ⟨k + 1, ?_, hlt, ?_, ?_⟩
        · simpa using hk
        · intro x hx
          rcases List.mem_cons.mp hx with hx | hx
          · rw [hx]
            exact le_of_lt (lt_of_lt_of_le hlt (not_lt.mp hcase))
          · exact hmin x hx
        · intro j hj x hx
          match j with
          | 0 =>
            simp only [List.getElem?_cons_zero, Option.some.injEq] at hx
            rw [← hx]
            exact lt_of_lt_of_le hlt (not_lt.mp hcase)
          | j' + 1 =>
            rw [List.getElem?_cons_succ] at hx
            exact hbefore j' (by omega) x hx

/-- Claim C9: profile selection uses the single entry when there is exactly
one, and otherwise returns the entry whose valid length is closest to one
third of the science segment length, earliest entry winning ties: the result
sits at an index whose distance is a global minimum and strictly below every
earlier index's distance. -/
theorem C9_pick_tile_size_closest_third (L : ℚ) (e0 : ProfileEntry)
    (rest : List ProfileEntry) :
    (rest = [] → pick_tile_size L e0 rest = e0) ∧
    (∃ k : ℕ, (e0 :: rest)[k]? = some (pick_tile_size L e0 rest) ∧
       (∀ e ∈ e0 :: rest,
          entryDiff (L / 3) (pick_tile_size L e0 rest) ≤ entryDiff (L / 3) e) ∧
       (∀ j : ℕ, j < k → ∀ e, (e0 :: rest)[j]? = some e →
          entryDiff (L / 3) (pick_tile_size L e0 rest) < entryDiff (L / 3) e)) := by
  constructor
  · intro h
    rw [h, pick_tile_size_single]
  · by_cases hrest : rest = []
    · subst hrest
      rw [pick_tile_size_single]
      refine ⟨0, by simp, ?_, fun j hj x hx => absurd hj (Nat.not_lt_zero j)⟩
      intro x hx
      rcases List.mem_cons.mp hx with hx | hx
      · rw [hx]
      · simp at hx
    · have hres : pick_tile_size L e0 rest =
          pickBest (L / 3) (e0 :: rest) e0 |e0.valid_chunk.size - L / 3| := by
        unfold pick_tile_size
        rw [if_neg hrest]
      rw [hres]
      obtain (⟨heq, hall⟩ | ⟨k, hk, hlt, hmin, hbefore⟩) :=
        pickBest_spec (L / 3) (e0 :: rest) e0 |e0.valid_chunk.size - L / 3| rfl
      · refine ⟨0, by simp [heq], ?_, fun j hj x hx => absurd hj (Nat.not_lt_zero j)⟩
        intro x hx
        rw [heq]
        rcases List.mem_cons.mp hx with hx | hx
        · rw [hx]
        · exact hall x (List.mem_cons_of_mem _ hx)
      · exact ⟨k, hk, hmin, hbefore⟩

theorem pick_two_eval : pick_tile_size 6000 entA [entB] = entB := by
  have h1 : |Seg.size (⟨0, 2500⟩ : Seg) - (6000 : ℚ) / 3| = 500 := by
    rw [Seg.size, abs_of_nonneg] <;> norm_num
  have h2 : |Seg.size (⟨0, 2000⟩ : Seg) - (6000 : ℚ) / 3| = 0 := by
    rw [Seg.size, abs_of_nonneg] <;> norm_num
  unfold pick_tile_size
  rw [if_neg (by simp)]
  simp only [pickBest, entA, entB]
  rw [h1, h2]
  norm_num

/-- Witness for C9: the single-entry profile returns its entry, and on the
two-entry profile the entry with valid length 2000 (distance 0 from
`6000/3`) is selected over the one with valid length 2500. -/
theorem C9_pick_tile_size_closest_third_witness :
    pick_tile_size 6000 entA [] = entA ∧
    pick_tile_size 6000 entA [entB] = entB ∧
    entryDiff ((6000 : ℚ) / 3) (pick_tile_size 6000 entA [entB]) ≤
      entryDiff ((6000 : ℚ) / 3) entA := by
  refine ⟨(C9_pick_tile_size_closest_third 6000 entA []).1 rfl, pick_two_eval, ?_⟩
  obtain ⟨k, hk, hmin, -⟩ := (C9_pick_tile_size_closest_third 6000 entA [entB]).2
  exact hmin entA (by simp)

theorem find_outputs_nil_iff (l : List Artifact) (ifo : String) (target : Seg) :
    find_outputs_in_range l ifo target = [] ↔
      ∀ art ∈ l, ¬ (art.owner = ifo ∧ art.ival.overlaps target) := by
  simp only [find_outputs_in_range, List.filter_eq_nil, Bool.and_eq_true,
    beq_iff_eq, Seg.overlapsB_iff, not_and]

theorem find_all_output_nil_iff (l : List Artifact) (ifo : String) (target : Seg) :
    find_all_output_in_range l ifo target = [] ↔
      ∀ art ∈ l, ¬ (art.owner = ifo ∧ art.ival.overlaps target) := by
  simp only [find_all_output_in_range, List.filter_eq_nil, Bool.and_eq_true,
    beq_iff_eq, Seg.overlapsB_iff, not_and]

theorem isEmpty_false_of_ne_nil {α : Type} (l : List α) (h : l ≠ []) :
    l.isEmpty = false := by
  cases l with
  | nil => exact absurd rfl h
  | cons a t => rfl

/-- Claim C7: for a job plan with a required dependency class, zero
overlapping catalog artifacts for the valid window (required parents) or the
data window (required data inputs) raise a fatal error and no node list is
produced for that job plan; when at least one artifact overlaps each required
class, no error is raised. -/
theorem C7_missing_dependency_fatal (ifo : String)
    (parents datafind_outs : List Artifact) (v d : Seg) :
    (parents ≠ [] →
       (∀ art ∈ parents, ¬ (art.owner = ifo ∧ art.ival.overlaps v)) →
       setup_jobs_for_plan ifo parents datafind_outs v d =
         Except.error no_parent_msg) ∧
    (datafind_outs ≠ [] →
       (parents = [] ∨ find_outputs_in_range parents ifo v ≠ []) →
       (∀ art ∈ datafind_outs, ¬ (art.owner = ifo ∧ art.ival.overlaps d)) →
       setup_jobs_for_plan ifo parents datafind_outs v d =
         Except.error no_datafind_msg) ∧
    ((parents = [] ∨ ∃ art ∈ parents, art.owner = ifo ∧ art.ival.overlaps v) →
     (datafind_outs = [] ∨
        ∃ art ∈ datafind_outs, art.owner = ifo ∧ art.ival.overlaps d) →
     ∃ ns, setup_jobs_for_plan ifo parents datafind_outs v d = Except.ok ns) := by
  refine ⟨?_, ?_, ?_⟩
  · intro hne hnone
    have hcp : find_outputs_in_range parents ifo v = [] :=
      (find_outputs_nil_iff parents ifo v).mpr hnone
    simp only [setup_jobs_for_plan]
    rw [if_pos (by rw [isEmpty_false_of_ne_nil parents hne, hcp]; rfl)]
  · intro hdfne hpar hnone
    have hdfo : find_all_output_in_range datafind_outs ifo d = [] :=
      (find_all_output_nil_iff datafind_outs ifo d).mpr hnone
    simp only [setup_jobs_for_plan]
    rw [if_neg ?_, if_pos (by rw [isEmpty_false_of_ne_nil datafind_outs hdfne, hdfo]; rfl)]
    rcases hpar with hpar | hpar
    · rw [hpar]
      simp
    · rw [isEmpty_false_of_ne_nil _ hpar]
      simp
  · intro hpar hdf
    simp only [setup_jobs_for_plan]
    rw [if_neg ?_, if_neg ?_]
    · exact ⟨_, rfl⟩
    · rcases hdf with hdf | hdf
      · rw [hdf]
        simp
      · obtain ⟨art, ha, ho, hov⟩ := hdf
        have : art ∈ find_all_output_in_range datafind_outs ifo d := by
          unfold find_all_output_in_range
          rw [List.mem_filter]
          exact ⟨ha, by rw [Bool.and_eq_true, beq_iff_eq, Seg.overlapsB_iff]; exact ⟨ho, hov⟩⟩
        rw [isEmpty_false_of_ne_nil _ (List.ne_nil_of_mem this)]
        simp
    · rcases hpar with hpar | hpar
      · rw [hpar]
        simp
      · obtain ⟨art, ha, ho, hov⟩ := hpar
        have : art ∈ find_outputs_in_range parents ifo v := by
          unfold find_outputs_in_range
          rw [List.mem_filter]
          exact ⟨ha, by rw [Bool.and_eq_true, beq_iff_eq, Seg.overlapsB_iff]; exact ⟨ho, hov⟩⟩
        rw [isEmpty_false_of_ne_nil _ (List.ne_nil_of_mem this)]
        simp

/-- Witness for C7 at concrete scenario 3: valid window `[3000, 4000]` has no
overlapping parent and errors; valid window `[72, 1976]` overlaps `[50, 2000]`
and succeeds. -/
theorem C7_missing_dependency_fatal_witness :
    setup_jobs_for_plan ifoH1 [bank_art] [] ⟨3000, 4000⟩ ⟨0, 2048⟩ =
      Except.error no_parent_msg ∧
    ∃ ns, setup_jobs_for_plan ifoH1 [bank_art] [] ⟨72, 1976⟩ ⟨0, 2048⟩ =
      Except.ok ns := by
  constructor
  · refine (C7_missing_dependency_fatal ifoH1 [bank_art] [] ⟨3000, 4000⟩
      ⟨0, 2048⟩).1 (by simp) ?_
    intro art ha
    rw [List.mem_singleton] at ha
    subst ha
    rintro ⟨-, hov⟩
    unfold Seg.overlaps at hov
    norm_num [bank_art] at hov
  · refine (C7_missing_dependency_fatal ifoH1 [bank_art] [] ⟨72, 1976⟩
      ⟨0, 2048⟩).2.2 (Or.inr ⟨bank_art, by simp, rfl, ?_⟩) (Or.inl rfl)
    unfold Seg.overlaps
    norm_num [bank_art]

/-- Claim C8: whenever a job plan's setup succeeds, exactly one node is
produced per resolved parent (a single node with no parent when no parent
list was supplied), all nodes sharing the job's data window, valid window and
resolved datafind inputs. -/
theorem C8_one_node_per_resolved_parent (ifo : String)
    (parents datafind_outs : List Artifact) (v d : Seg) (ns : List JobNode)
    (h : setup_jobs_for_plan ifo parents datafind_outs v d = Except.ok ns) :
    ns.map JobNode.parent =
      (if parents.isEmpty then [none]
       else (find_outputs_in_range parents ifo v).map some) ∧
    ns.length = (if parents.isEmpty then 1
       else (find_outputs_in_range parents ifo v).length) ∧
    (parents = [] → ns.length = 1) ∧
    (∀ node ∈ ns, node.data_window = d ∧ node.valid_window = v ∧
      node.df_parents = (if datafind_outs.isEmpty then none
        else some (find_all_output_in_range datafind_outs ifo d))) := by
  simp only [setup_jobs_for_plan] at h
  split at h
  · exact absurd h (by simp)
  · split at h
    · exact absurd h (by simp)
    · rw [Except.ok.injEq] at h
      subst h
      refine ⟨?_, ?_, ?_, ?_⟩
      · rw [List.map_map]
        have hcomp : (JobNode.parent ∘ fun p =>
            (⟨d, v, p, if datafind_outs.isEmpty then none
              else some (find_all_output_in_range datafind_outs ifo d)⟩ : JobNode)) =
            id := rfl
        rw [hcomp, List.map_id]
      · rw [List.length_map]
        split <;> simp
      · intro hp
        subst hp
        simp
      · intro node hn
        rw [List.mem_map] at hn
        obtain ⟨p, -, hp⟩ := hn
        subst hp
        exact ⟨rfl, rfl, rfl⟩

theorem setup_two_banks_eval :
    setup_jobs_for_plan ifoH1 [bank_art, bank_art2] [] ⟨72, 1976⟩ ⟨0, 2048⟩ =
      Except.ok [⟨⟨0, 2048⟩, ⟨72, 1976⟩, some bank_art, none⟩,
                 ⟨⟨0, 2048⟩, ⟨72, 1976⟩, some bank_art2, none⟩] := by
  have hp1 : (bank_art.owner == ifoH1 && bank_art.ival.overlapsB ⟨72, 1976⟩) = true := by
    rw [Bool.and_eq_true, beq_iff_eq, Seg.overlapsB_iff]
    refine ⟨rfl, ?_⟩
    unfold Seg.overlaps
    norm_num [bank_art]
  have hp2 : (bank_art2.owner == ifoH1 && bank_art2.ival.overlapsB ⟨72, 1976⟩) = true := by
    rw [Bool.and_eq_true, beq_iff_eq, Seg.overlapsB_iff]
    refine ⟨rfl, ?_⟩
    unfold Seg.overlaps
    norm_num [bank_art2]
  have hfind : find_outputs_in_range [bank_art, bank_art2] ifoH1 ⟨72, 1976⟩ =
      [bank_art, bank_art2] := by
    unfold find_outputs_in_range
    simp only [List.filter_cons, hp1, hp2, if_true, List.filter_nil]
  simp only [setup_jobs_for_plan, hfind]
  simp

/-- Witness for C8 at concrete scenario 4: two bank artifacts overlap the
valid window, so exactly two nodes are emitted, both reading the same data
window. -/
theorem C8_one_node_per_resolved_parent_witness :
    ∃ ns : List JobNode,
      setup_jobs_for_plan ifoH1 [bank_art, bank_art2] [] ⟨72, 1976⟩ ⟨0, 2048⟩ =
        Except.ok ns ∧
      ns.length = 2 ∧ ∀ node ∈ ns, node.data_window = ⟨0, 2048⟩ := by
  refine ⟨_, setup_two_banks_eval, rfl, ?_⟩
  have h := C8_one_node_per_resolved_parent ifoH1 [bank_art, bank_art2] []
    ⟨72, 1976⟩ ⟨0, 2048⟩ _ setup_two_banks_eval
  exact fun node hn => (h.2.2.2 node hn).1

/-- With fewer than 10000 jobs, adding the `0.0001` guard to a nonnegative
rational with denominator `n` cannot push it past the next integer. -/
theorem floor_div_add_eps (m n : ℤ) (hm : 0 ≤ m) (hn : 0 < n)
    (hsmall : n < 10000) :
    ⌊(m : ℚ) / (n : ℚ) + eps⌋ = ⌊(m : ℚ) / (n : ℚ)⌋ := by
  have hnq : (0 : ℚ) < (n : ℚ) := by exact_mod_cast hn
  have hr0 : (0 : ℚ) ≤ ((m % n : ℤ) : ℚ) := by
    exact_mod_cast Int.emod_nonneg m (ne_of_gt hn)
  have hrlt : ((m % n : ℤ) : ℚ) ≤ (n : ℚ) - 1 := by
    have h1 := Int.emod_lt_of_pos m hn
    have h2 : m % n ≤ n - 1 := by omega
    exact_mod_cast h2
  have hdecomp : (m : ℚ) / n = ((m / n : ℤ) : ℚ) + ((m % n : ℤ) : ℚ) / n := by
    have h := Int.ediv_add_emod m n
    have h2 : (m : ℚ) = ((m / n : ℤ) : ℚ) * n + ((m % n : ℤ) : ℚ) := by
      have h3 : ((n * (m / n) + m % n : ℤ) : ℚ) = (m : ℚ) := by exact_mod_cast congrArg (fun z : ℤ => (z : ℚ)) h
      push_cast at h3
      linarith
    rw [h2]
    field_simp
  have heps : (0 : ℚ) < eps := by norm_num [eps]
  have hepslt : eps < 1 / (n : ℚ) := by
    rw [eps, div_lt_div_iff (by norm_num) hnq]
    have : (n : ℚ) < 10000 := by exact_mod_cast hsmall
    linarith
  have hfr : ((m % n : ℤ) : ℚ) / n ≤ 1 - 1 / n := by
    rw [div_le_iff hnq]
    have : (1 - 1 / (n : ℚ)) * n = n - 1 := by
      field_simp
    rw [this]
    exact hrlt
  have hfrac0 : ⌊((m % n : ℤ) : ℚ) / n⌋ = 0 := by
    rw [Int.floor_eq_zero_iff]
    constructor
    · exact div_nonneg hr0 hnq.le
    · have h1n : (0 : ℚ) < 1 / (n : ℚ) := by positivity
      calc ((m % n : ℤ) : ℚ) / n ≤ 1 - 1 / n := hfr
      _ < 1 := by linarith
  have hfrac1 : ⌊((m % n : ℤ) : ℚ) / n + eps⌋ = 0 := by
    rw [Int.floor_eq_zero_iff]
    constructor
    · have := div_nonneg hr0 hnq.le
      linarith
    · calc ((m % n : ℤ) : ℚ) / n + eps ≤ 1 - 1 / n + eps := by linarith
      _ < 1 := by linarith
  rw [hdecomp, add_assoc, Int.floor_int_add, Int.floor_int_add, hfrac0, hfrac1]

/-- Truncating `M/n + c` (or the same plus the epsilon guard, with fewer than
10000 jobs) gives `c + floor(M/n)` for nonnegative integer data. -/
theorem pyInt_floor_shift (M n c : ℤ) (hM : 0 ≤ M) (hn : 0 < n) (hc : 0 ≤ c)
    (hsmall : n < 10000) :
    pyInt ((M : ℚ) / (n : ℚ) + (c : ℚ) + eps) = c + ⌊(M : ℚ) / (n : ℚ)⌋ ∧
    pyInt ((M : ℚ) / (n : ℚ) + (c : ℚ)) = c + ⌊(M : ℚ) / (n : ℚ)⌋ := by
  have hnq : (0 : ℚ) < (n : ℚ) := by exact_mod_cast hn
  have hMq : (0 : ℚ) ≤ (M : ℚ) := by exact_mod_cast hM
  have hcq : (0 : ℚ) ≤ (c : ℚ) := by exact_mod_cast hc
  have hdiv : (0 : ℚ) ≤ (M : ℚ) / n := div_nonneg hMq hnq.le
  have heps : (0 : ℚ) < eps := by norm_num [eps]
  constructor
  · rw [pyInt_of_nonneg _ (by linarith)]
    rw [show (M : ℚ) / n + c + eps = (c : ℚ) + ((M : ℚ) / n + eps) by ring]
    rw [Int.floor_int_add, floor_div_add_eps M n hM hn hsmall]
  · rw [pyInt_of_nonneg _ (by linarith)]
    rw [show (M : ℚ) / n + c = (c : ℚ) + (M : ℚ) / n by ring]
    rw [Int.floor_int_add]

/-- Claim C4 (amended): with integer profile and segment data, nonnegative
window boundaries, and fewer than 10000 jobs, the `allow_overlap = False`
windows returned for distinct job indices never intersect (in the strict
overlap convention of `ligo.segments`). -/
theorem C4_nonoverlap_windows_disjoint (e0 : ProfileEntry) (rest : List ProfileEntry)
    (ss se a b D : ℤ) (s : Segmenter)
    (hpick : pick_tile_size (Seg.size ⟨(ss : ℚ), (se : ℚ)⟩) e0 rest =
      ⟨(D : ℚ), ⟨(a : ℚ), (b : ℚ)⟩⟩)
    (hinit : JobSegmenter.init e0 rest ⟨(ss : ℚ), (se : ℚ)⟩ = Except.ok s)
    (hab : a ≤ b) (hc : 0 ≤ ss + a) (hn : s.num_jobs < 10000)
    (i j : ℕ) (hij : i < j) (hjn : (j : ℤ) < s.num_jobs)
    (wi wj : Seg)
    (hwi : s.get_valid_times_for_job i false = Except.ok wi)
    (hwj : s.get_valid_times_for_job j false = Except.ok wj) :
    ¬ wi.overlaps wj := by
  obtain ⟨hcs, hdl, hvc, hvl, hdc, hloss, hlossnn, hl0, hrest⟩ :=
    init_fields e0 rest ⟨(ss : ℚ), (se : ℚ)⟩ (D : ℚ) ⟨(a : ℚ), (b : ℚ)⟩ s hpick hinit
  have hj0 : (0 : ℤ) ≤ (j : ℤ) := Int.natCast_nonneg j
  have hnpos : 0 < s.num_jobs := lt_of_le_of_lt hj0 hjn
  have hnq : (0 : ℚ) < (s.num_jobs : ℚ) := by exact_mod_cast hnpos
  have hLD : (D : ℚ) ≤ Seg.size ⟨(ss : ℚ), (se : ℚ)⟩ := by
    by_contra hcon
    have := (hl0 (not_le.mp hcon)).1
    omega
  have hA0 : (0 : ℤ) ≤ (se - ss) - (D - (b - a)) := by
    simp only [Seg.size] at hlossnn hLD
    have habq : (a : ℚ) ≤ (b : ℚ) := by exact_mod_cast hab
    have h1 : (0 : ℚ) ≤ ((se : ℚ) - ss) - ((D : ℚ) - ((b : ℚ) - a)) := by linarith
    have h2 : (0 : ℚ) ≤ (((se - ss) - (D - (b - a)) : ℤ) : ℚ) := by push_cast; linarith
    exact_mod_cast h2
  obtain ⟨-, hwieq⟩ := (get_valid_false_ok_iff s i wi).mp hwi
  obtain ⟨-, hwjeq⟩ := (get_valid_false_ok_iff s j wj).mp hwj
  have hargU : (s.curr_seg.size - s.data_loss) / (s.num_jobs : ℚ) +
      ((i : ℚ) * ((s.curr_seg.size - s.data_loss) / (s.num_jobs : ℚ)) +
        s.valid_chunk.lo + s.curr_seg.lo) + eps =
      ((((i : ℤ) + 1) * ((se - ss) - (D - (b - a))) : ℤ) : ℚ) / (s.num_jobs : ℚ) +
        ((a + ss : ℤ) : ℚ) + eps := by
    rw [hcs, hvc, hloss]
    simp only [Seg.size]
    push_cast
    ring
  have hargL : (j : ℚ) * ((s.curr_seg.size - s.data_loss) / (s.num_jobs : ℚ)) +
      s.valid_chunk.lo + s.curr_seg.lo =
      (((j : ℤ) * ((se - ss) - (D - (b - a))) : ℤ) : ℚ) / (s.num_jobs : ℚ) +
        ((a + ss : ℤ) : ℚ) := by
    rw [hcs, hvc, hloss]
    simp only [Seg.size]
    push_cast
    ring
  have hUi := (pyInt_floor_shift (((i : ℤ) + 1) * ((se - ss) - (D - (b - a))))
      s.num_jobs (a + ss) (mul_nonneg (by omega) hA0) hnpos (by omega) hn).1
  have hLj := (pyInt_floor_shift ((j : ℤ) * ((se - ss) - (D - (b - a))))
      s.num_jobs (a + ss) (mul_nonneg hj0 hA0) hnpos (by omega) hn).2
  rw [hargU, hUi] at hwieq
  rw [hargL, hLj] at hwjeq
  have hmono : ⌊((((i : ℤ) + 1) * ((se - ss) - (D - (b - a))) : ℤ) : ℚ) /
        (s.num_jobs : ℚ)⌋ ≤
      ⌊(((j : ℤ) * ((se - ss) - (D - (b - a))) : ℤ) : ℚ) / (s.num_jobs : ℚ)⌋ := by
    apply Int.floor_le_floor
    rw [div_le_div_iff_of_pos_right hnq]
    have hij1 : (i : ℤ) + 1 ≤ (j : ℤ) := by omega
    have := mul_le_mul_of_nonneg_right hij1 hA0
    exact_mod_cast this
  rintro ⟨-, h2⟩
  rw [hwieq, hwjeq] at h2
  simp only at h2
  have h4 : (a + ss + ⌊(((j : ℤ) * ((se - ss) - (D - (b - a))) : ℤ) : ℚ) /
      (s.num_jobs : ℚ)⌋ : ℤ) <
      (a + ss + ⌊((((i : ℤ) + 1) * ((se - ss) - (D - (b - a))) : ℤ) : ℚ) /
      (s.num_jobs : ℚ)⌋ : ℤ) := by
    exact_mod_cast h2
  omega

theorem pyInt_lit_72 : pyInt (72 : ℚ) = 72 := by
  unfold pyInt
  norm_num

theorem seg1_nov0 : segmenter1.get_valid_times_for_job 0 false = Except.ok ⟨72, 1536⟩ := by
  rw [get_valid_false_ok_iff]
  have e2 : (segmenter1.curr_seg.size - segmenter1.data_loss) / (segmenter1.num_jobs : ℚ) +
      (((0 : ℕ) : ℚ) * ((segmenter1.curr_seg.size - segmenter1.data_loss) /
        (segmenter1.num_jobs : ℚ)) + segmenter1.valid_chunk.lo + segmenter1.curr_seg.lo) +
      eps = 15360001 / 10000 := by
    norm_num [segmenter1, Seg.size, eps]
  have e1 : ((0 : ℕ) : ℚ) * ((segmenter1.curr_seg.size - segmenter1.data_loss) /
      (segmenter1.num_jobs : ℚ)) + segmenter1.valid_chunk.lo + segmenter1.curr_seg.lo =
      72 := by
    norm_num [segmenter1, Seg.size]
  rw [e2, e1, offset_zero, pyInt_lit_72]
  rw [show pyInt ((15360001 : ℚ) / 10000) = 1536 from
    pyInt_eq_of _ _ (by norm_num) (by norm_num) (by norm_num)]
  refine ⟨?_, by norm_num⟩
  norm_num [segmenter1]

theorem seg1_nov1 : segmenter1.get_valid_times_for_job 1 false = Except.ok ⟨1536, 3000⟩ := by
  rw [get_valid_false_ok_iff]
  have e2 : (segmenter1.curr_seg.size - segmenter1.data_loss) / (segmenter1.num_jobs : ℚ) +
      (((1 : ℕ) : ℚ) * ((segmenter1.curr_seg.size - segmenter1.data_loss) /
        (segmenter1.num_jobs : ℚ)) + segmenter1.valid_chunk.lo + segmenter1.curr_seg.lo) +
      eps = 30000001 / 10000 := by
    norm_num [segmenter1, Seg.size, eps]
  have e1 : ((1 : ℕ) : ℚ) * ((segmenter1.curr_seg.size - segmenter1.data_loss) /
      (segmenter1.num_jobs : ℚ)) + segmenter1.valid_chunk.lo + segmenter1.curr_seg.lo =
      1536 := by
    norm_num [segmenter1, Seg.size]
  rw [e2, e1, seg1_off1]
  rw [show pyInt ((1536 : ℚ)) = 1536 from
    pyInt_eq_of _ _ (by norm_num) (by norm_num) (by norm_num)]
  rw [show pyInt ((30000001 : ℚ) / 10000) = 3000 from
    pyInt_eq_of _ _ (by norm_num) (by norm_num) (by norm_num)]
  refine ⟨?_, by norm_num⟩
  norm_num [segmenter1]

/-- Witness for the amended C4 at scenario 1: jobs 0 and 1 get the disjoint
slices `[72, 1536]` and `[1536, 3000]`, which do not overlap. -/
theorem C4_nonoverlap_windows_disjoint_witness :
    ¬ Seg.overlaps ⟨72, 1536⟩ ⟨1536, 3000⟩ :=
  C4_nonoverlap_windows_disjoint bank_entry [] 0 6000 72 1976 2048 segmenter1
    (by rw [pick_tile_size_single]
        simp only [bank_entry, ProfileEntry.mk.injEq, Seg.mk.injEq]
        norm_num)
    (by push_cast; exact segmenter1_init)
    (by norm_num) (by norm_num) (by norm_num [segmenter1]) 0 1 (by norm_num)
    (by norm_num [segmenter1]) ⟨72, 1536⟩ ⟨1536, 3000⟩ seg1_nov0 seg1_nov1

theorem numJobsC4_eval : numJobsFormula (19999 : ℚ) 2 2 = 10000 := by
  unfold numJobsFormula
  norm_num [Int.ceil_eq_iff]

theorem shiftC4_eval : shiftFormula (19999 : ℚ) 2 2 = 19997 / 9999 := by
  unfold shiftFormula
  rw [if_neg (by norm_num), numJobsC4_eval]
  norm_num

theorem sC4_init : JobSegmenter.init entC4 [] ⟨0, 19999⟩ = Except.ok sC4 := by
  rw [init_eval entC4 ⟨0, 19999⟩ (by norm_num [entC4, Seg.size])
      (by norm_num [entC4, Seg.size])]
  simp only [entC4, sC4, Seg.size]
  norm_num
  exact ⟨numJobsC4_eval, shiftC4_eval⟩

theorem sC4_valid0 : sC4.get_valid_times_for_job 0 false = Except.ok ⟨0, 2⟩ := by
  rw [get_valid_false_ok_iff]
  have e2 : (sC4.curr_seg.size - sC4.data_loss) / (sC4.num_jobs : ℚ) +
      (((0 : ℕ) : ℚ) * ((sC4.curr_seg.size - sC4.data_loss) / (sC4.num_jobs : ℚ)) +
        sC4.valid_chunk.lo + sC4.curr_seg.lo) + eps = 2 := by
    norm_num [sC4, Seg.size, eps]
  have e1 : ((0 : ℕ) : ℚ) * ((sC4.curr_seg.size - sC4.data_loss) /
      (sC4.num_jobs : ℚ)) + sC4.valid_chunk.lo + sC4.curr_seg.lo = 0 := by
    norm_num [sC4, Seg.size]
  rw [e2, e1, offset_zero]
  rw [show pyInt ((0 : ℚ)) = 0 from pyInt_eq_of _ _ (by norm_num) (by norm_num) (by norm_num)]
  rw [show pyInt ((2 : ℚ)) = 2 from pyInt_eq_of _ _ (by norm_num) (by norm_num) (by norm_num)]
  refine ⟨?_, by norm_num⟩
  norm_num [sC4]

theorem sC4_valid1 : sC4.get_valid_times_for_job 1 false = Except.ok ⟨1, 3⟩ := by
  rw [get_valid_false_ok_iff]
  have e2 : (sC4.curr_seg.size - sC4.data_loss) / (sC4.num_jobs : ℚ) +
      (((1 : ℕ) : ℚ) * ((sC4.curr_seg.size - sC4.data_loss) / (sC4.num_jobs : ℚ)) +
        sC4.valid_chunk.lo + sC4.curr_seg.lo) + eps = 39999 / 10000 := by
    norm_num [sC4, Seg.size, eps]
  have e1 : ((1 : ℕ) : ℚ) * ((sC4.curr_seg.size - sC4.data_loss) /
      (sC4.num_jobs : ℚ)) + sC4.valid_chunk.lo + sC4.curr_seg.lo = 19999 / 10000 := by
    norm_num [sC4, Seg.size]
  have o1 : pyInt (sC4.job_time_shift * ((1 : ℕ) : ℚ) + eps) = 1 := by
    apply pyInt_eq_of <;> norm_num [sC4, eps]
  rw [e2, e1, o1]
  rw [show pyInt ((19999 : ℚ) / 10000) = 1 from
    pyInt_eq_of _ _ (by norm_num) (by norm_num) (by norm_num)]
  rw [show pyInt ((39999 : ℚ) / 10000) = 3 from
    pyInt_eq_of _ _ (by norm_num) (by norm_num) (by norm_num)]
  refine ⟨?_, by norm_num⟩
  norm_num [sC4]

/-- Counterexample to claim C4 as stated: on the science interval
`[0, 19999]` with readable span 2 and valid span `[0, 2]` the tiler builds
10000 jobs, and with `allow_overlap = False` jobs 0 and 1 receive the valid
windows `[0, 2]` and `[1, 3]`, which overlap (both contain the open
neighbourhood of `3/2`). -/
theorem C4_counterexample_windows_overlap :
    JobSegmenter.init entC4 [] ⟨0, 19999⟩ = Except.ok sC4 ∧
    sC4.num_jobs = 10000 ∧
    sC4.get_valid_times_for_job 0 false = Except.ok ⟨0, 2⟩ ∧
    sC4.get_valid_times_for_job 1 false = Except.ok ⟨1, 3⟩ ∧
    Seg.overlaps ⟨0, 2⟩ ⟨1, 3⟩ ∧
    Seg.mem ⟨0, 2⟩ (3 / 2) ∧ Seg.mem ⟨1, 3⟩ (3 / 2) :=
  ⟨sC4_init, rfl, sC4_valid0, sC4_valid1,
   by unfold Seg.overlaps; norm_num,
   by unfold Seg.mem; norm_num,
   by unfold Seg.mem; norm_num⟩

/-- Claim C1 (amended): with `allow_overlap`, integer data, a valid chunk
inside `[0, D]` and a segment at least as long as the readable span, the
union of the valid windows over all job indices is exactly the interval
`[S.start + valid_chunk.lo, S.end - (data_length - valid_chunk.hi)]`: the
windows tile that sub-interval without gaps and never extend outside it (in
particular never outside `S`), but the union misses the leading
`valid_chunk.lo` and trailing `data_length - valid_chunk.hi` paddings of `S`. -/
theorem C1_union_of_valid_windows (e0 : ProfileEntry) (rest : List ProfileEntry)
    (ss se a b D : ℤ) (s : Segmenter)
    (hpick : pick_tile_size (Seg.size ⟨(ss : ℚ), (se : ℚ)⟩) e0 rest =
      ⟨(D : ℚ), ⟨(a : ℚ), (b : ℚ)⟩⟩)
    (hinit : JobSegmenter.init e0 rest ⟨(ss : ℚ), (se : ℚ)⟩ = Except.ok s)
    (ha : 0 ≤ a) (hab : a < b) (hbD : b ≤ D) (hLD : ss + D ≤ se) (t : ℚ) :
    (∃ i : ℕ, ∃ w : Seg, (i : ℤ) < s.num_jobs ∧
        s.get_valid_times_for_job i true = Except.ok w ∧ w.mem t) ↔
      ((ss : ℚ) + a ≤ t ∧ t ≤ (se : ℚ) - ((D : ℚ) - b)) := by
  obtain ⟨hcs, hdl, hvc, hvl, hdc, hloss, hlossnn, hl0, hrest⟩ :=
    init_fields e0 rest ⟨(ss : ℚ), (se : ℚ)⟩ (D : ℚ) ⟨(a : ℚ), (b : ℚ)⟩ s hpick hinit
  have hsize1 : Seg.size ⟨(ss : ℚ), (se : ℚ)⟩ = (se : ℚ) - ss := rfl
  have hsize2 : Seg.size ⟨(a : ℚ), (b : ℚ)⟩ = (b : ℚ) - a := rfl
  have hV : (0 : ℚ) < Seg.size ⟨(a : ℚ), (b : ℚ)⟩ := by
    rw [hsize2]
    have : (a : ℚ) < (b : ℚ) := by exact_mod_cast hab
    linarith
  have hLDq : (D : ℚ) ≤ Seg.size ⟨(ss : ℚ), (se : ℚ)⟩ := by
    rw [hsize1]
    have : (D : ℤ) ≤ se - ss := by omega
    exact_mod_cast this
  obtain ⟨hn, hσ⟩ := hrest (not_lt.mpr hLDq)
  have hn1 : 1 ≤ s.num_jobs := by
    rw [hn]
    exact numJobs_pos _ _ _ hV hLDq
  have hσ0 : 0 ≤ s.job_time_shift := by
    rw [hσ]
    exact shift_nonneg _ _ _ hV hLDq
  have hσV : s.job_time_shift ≤ (b : ℚ) - a := by
    rw [hσ]
    have := shift_le (Seg.size ⟨(ss : ℚ), (se : ℚ)⟩) (D : ℚ)
      (Seg.size ⟨(a : ℚ), (b : ℚ)⟩) hV hLDq
    rwa [hsize2] at this
  have hσmul : s.job_time_shift * ((s.num_jobs : ℚ) - 1) = ((se : ℚ) - ss) - D := by
    have h := shift_mul (Seg.size ⟨(ss : ℚ), (se : ℚ)⟩) (D : ℚ)
      (Seg.size ⟨(a : ℚ), (b : ℚ)⟩) hV hLDq
    rw [← hn, ← hσ, hsize1] at h
    exact h
  have hoflo : ∀ i : ℕ, pyInt (s.job_time_shift * i + eps) =
      ⌊s.job_time_shift * i + eps⌋ := fun i => offset_floor _ i hσ0
  have ho0 : ⌊s.job_time_shift * ((0 : ℕ) : ℚ) + eps⌋ = 0 := by
    rw [← hoflo 0]
    exact offset_zero _
  have homono : ∀ i j : ℕ, i ≤ j →
      ⌊s.job_time_shift * (i : ℚ) + eps⌋ ≤ ⌊s.job_time_shift * (j : ℚ) + eps⌋ := by
    intro i j hij
    rw [← hoflo i, ← hoflo j]
    exact offset_mono _ i j hσ0 hij
  have honn : ∀ i : ℕ, (0 : ℤ) ≤ ⌊s.job_time_shift * (i : ℚ) + eps⌋ := by
    intro i
    rw [← ho0]
    exact homono 0 i (Nat.zero_le i)
  have hNcast : (((s.num_jobs - 1).toNat : ℤ)) = s.num_jobs - 1 :=
    Int.toNat_of_nonneg (by omega)
  have hNq : (((s.num_jobs - 1).toNat : ℕ) : ℚ) = (s.num_jobs : ℚ) - 1 := by
    exact_mod_cast congrArg (fun z : ℤ => (z : ℚ)) hNcast
  have hoN : ⌊s.job_time_shift * (((s.num_jobs - 1).toNat : ℕ) : ℚ) + eps⌋ =
      se - ss - D := by
    rw [← hoflo]
    apply offset_exact _ _ _ hσ0
    rw [hNq, hσmul]
    push_cast
    ring
  have hole : ∀ i : ℕ, i ≤ (s.num_jobs - 1).toNat →
      ⌊s.job_time_shift * (i : ℚ) + eps⌋ ≤ se - ss - D := by
    intro i hi
    rw [← hoN]
    exact homono i _ hi
  have hostep : ∀ i : ℕ,
      ⌊s.job_time_shift * ((i + 1 : ℕ) : ℚ) + eps⌋ ≤
        ⌊s.job_time_shift * (i : ℚ) + eps⌋ + (b - a) := by
    intro i
    have h1 := offset_step s.job_time_shift i (b - a) hσ0 (by push_cast; linarith)
    rw [hoflo, hoflo] at h1
    exact h1
  constructor
  · rintro ⟨i, w, hin, hw, hmem⟩
    rw [get_valid_true_eq, hvc, hcs, Except.ok.injEq] at hw
    rw [← hw] at hmem
    simp only [Seg.shift, Seg.mem] at hmem
    rw [hoflo i] at hmem
    have h0q : (0 : ℚ) ≤ (⌊s.job_time_shift * (i : ℚ) + eps⌋ : ℚ) := by
      exact_mod_cast honn i
    have hiN : i ≤ (s.num_jobs - 1).toNat := by omega
    have hleq : ((⌊s.job_time_shift * (i : ℚ) + eps⌋ : ℤ) : ℚ) ≤
        ((se - ss - D : ℤ) : ℚ) := by
      exact_mod_cast hole i hiN
    push_cast at hleq
    constructor
    · linarith [hmem.1]
    · linarith [hmem.2]
  · rintro ⟨ht1, ht2⟩
    have hP0 : coverP s.job_time_shift ((ss : ℚ) + a) t 0 := by
      unfold coverP
      rw [ho0]
      push_cast
      linarith
    set K := Nat.findGreatest (coverP s.job_time_shift ((ss : ℚ) + a) t)
      ((s.num_jobs - 1).toNat)
    have hPk : coverP s.job_time_shift ((ss : ℚ) + a) t K :=
      Nat.findGreatest_spec (Nat.zero_le _) hP0
    have hkN : K ≤ (s.num_jobs - 1).toNat := Nat.findGreatest_le _
    have hPkq : (ss : ℚ) + a + (⌊s.job_time_shift * (K : ℚ) + eps⌋ : ℚ) ≤ t := hPk
    refine ⟨K, Seg.shift ⟨(a : ℚ), (b : ℚ)⟩ ((ss : ℚ) +
      (pyInt (s.job_time_shift * (K : ℚ) + eps) : ℚ)), ?_, ?_, ?_⟩
    · omega
    · rw [get_valid_true_eq, hvc, hcs]
    · simp only [Seg.shift, Seg.mem]
      rw [hoflo]
      refine ⟨by linarith [hPkq], ?_⟩
      rcases eq_or_lt_of_le hkN with hkN2 | hkN2
      · have hlast : ⌊s.job_time_shift * (K : ℚ) + eps⌋ = se - ss - D := by
          rw [hkN2]
          exact hoN
        have hlastq : ((⌊s.job_time_shift * (K : ℚ) + eps⌋ : ℤ) : ℚ) =
            ((se - ss - D : ℤ) : ℚ) :=
          congrArg (fun z : ℤ => (z : ℚ)) hlast
        push_cast at hlastq
        linarith
      · have hnot : ¬ coverP s.job_time_shift ((ss : ℚ) + a) t (K + 1) :=
          Nat.findGreatest_is_greatest (Nat.lt_succ_of_le (le_refl K)) hkN2
        have hnotq : ¬ ((ss : ℚ) + a +
            (⌊s.job_time_shift * ((K + 1 : ℕ) : ℚ) + eps⌋ : ℚ) ≤ t) := hnot
        rw [not_le] at hnotq
        push_cast at hnotq
        have hstepq : ((⌊s.job_time_shift * ((K + 1 : ℕ) : ℚ) + eps⌋ : ℤ) : ℚ) ≤
            ((⌊s.job_time_shift * (K : ℚ) + eps⌋ + (b - a) : ℤ) : ℚ) := by
          exact_mod_cast hostep K
        push_cast at hstepq
        linarith

/-- Counterexample to claim C1 as stated: in concrete scenario 1 the science
interval `[0, 6000]` contains `t = 0`, but none of the four valid windows
does — the union of valid windows starts at `72 = S.start + valid_chunk.lo`,
not at `S.start`, so it does not equal `[S.start, S.end]`. -/
theorem C1_counterexample_union_misses_segment_start :
    JobSegmenter.init bank_entry [] sci_seg1 = Except.ok segmenter1 ∧
    segmenter1.num_jobs = 4 ∧
    Seg.mem sci_seg1 0 ∧
    segmenter1.get_valid_times_for_job 0 true = Except.ok ⟨72, 1976⟩ ∧
    segmenter1.get_valid_times_for_job 1 true = Except.ok ⟨1389, 3293⟩ ∧
    segmenter1.get_valid_times_for_job 2 true = Except.ok ⟨2706, 4610⟩ ∧
    segmenter1.get_valid_times_for_job 3 true = Except.ok ⟨4024, 5928⟩ ∧
    ¬ Seg.mem ⟨72, 1976⟩ 0 ∧ ¬ Seg.mem ⟨1389, 3293⟩ 0 ∧
    ¬ Seg.mem ⟨2706, 4610⟩ 0 ∧ ¬ Seg.mem ⟨4024, 5928⟩ 0 :=
  ⟨segmenter1_init, rfl,
   by unfold Seg.mem sci_seg1; norm_num,
   seg1_valid0, seg1_valid1, seg1_valid2, seg1_valid3,
   by unfold Seg.mem; norm_num,
   by unfold Seg.mem; norm_num,
   by unfold Seg.mem; norm_num,
   by unfold Seg.mem; norm_num⟩

/-- Witness for the amended C1 at scenario 1: the time `t = 100` lies in
`[S.start + 72, S.end - 72]`, so some job's valid window contains it; and the
window containing `t = 5900` also exists near the segment's end. -/
theorem C1_union_of_valid_windows_witness :
    (∃ i : ℕ, ∃ w : Seg, (i : ℤ) < segmenter1.num_jobs ∧
        segmenter1.get_valid_times_for_job i true = Except.ok w ∧ w.mem 100) ∧
    (∃ i : ℕ, ∃ w : Seg, (i : ℤ) < segmenter1.num_jobs ∧
        segmenter1.get_valid_times_for_job i true = Except.ok w ∧ w.mem 5900) := by
  constructor
  · exact (C1_union_of_valid_windows bank_entry [] 0 6000 72 1976 2048 segmenter1
      (by rw [pick_tile_size_single]
          simp only [bank_entry, ProfileEntry.mk.injEq, Seg.mk.injEq]
          norm_num)
      (by push_cast; exact segmenter1_init)
      (by norm_num) (by norm_num) (by norm_num) (by norm_num) 100).mpr
      (by constructor <;> norm_num)
  · exact (C1_union_of_valid_windows bank_entry [] 0 6000 72 1976 2048 segmenter1
      (by rw [pick_tile_size_single]
          simp only [bank_entry, ProfileEntry.mk.injEq, Seg.mk.injEq]
          norm_num)
      (by push_cast; exact segmenter1_init)
      (by norm_num) (by norm_num) (by norm_num) (by norm_num) 5900).mpr
      (by constructor <;> norm_num)
